import Mathlib

/-!
Verification of the data-cleaning and metric-derivation pipeline of the
customer-analysis dashboard (`src/app.py`).

Modelling conventions (shallow embedding):
* A pandas cell value after `astype(str)` is a `String`; a missing (NaN)
  float cell renders as the string "nan".
* A cleaned float cell is an `Option ℚ`: `none` models NaN/missing, `some q`
  a finite float value.  The dashboard only ever produces decimal values,
  so exact rationals are adequate.
* A transform that can raise (`astype(float)` raising `ValueError`) returns
  `Except Unit (Option ℚ)`: `Except.error ()` models the exception.
-/

namespace DashApp

/-- Decidable equality for modelled fallible results. -/
instance {ε α : Type} [DecidableEq ε] [DecidableEq α] : DecidableEq (Except ε α) :=
  fun a b =>
    match a, b with
    | Except.error e, Except.error f =>
      if h : e = f then isTrue (by rw [h]) else isFalse (fun c => h (Except.error.inj c))
    | Except.error _, Except.ok _ => isFalse (fun c => Except.noConfusion c)
    | Except.ok _, Except.error _ => isFalse (fun c => Except.noConfusion c)
    | Except.ok x, Except.ok y =>
      if h : x = y then isTrue (by rw [h]) else isFalse (fun c => h (Except.ok.inj c))

/-- One decimal digit to its value. -/
def digitVal (c : Char) : Nat := c.toNat - Char.toNat '0'

/-- Value of a list of decimal digits, most significant first. -/
def digitsToNat (cs : List Char) : Nat :=
  cs.foldl (fun a c => 10 * a + digitVal c) 0

/-- Python `float` on an unsigned decimal literal: digits with at most one
decimal point and at least one digit overall (`".5"`, `"5."`, `"12.25"` are
accepted; `"."`, `""`, `"1.2.3"`, anything with other characters is not). -/
def parseUnsigned (cs : List Char) : Option ℚ :=
  let intP := cs.takeWhile Char.isDigit
  let rest := cs.dropWhile Char.isDigit
  match rest with
  | [] => if intP.isEmpty then none else some (digitsToNat intP : ℚ)
  | c :: frac =>
    if c = '.' ∧ frac.all Char.isDigit ∧ ¬(intP.isEmpty ∧ frac.isEmpty) then
      some ((digitsToNat intP : ℚ) + (digitsToNat frac : ℚ) / (10 : ℚ) ^ frac.length)
    else none

/-- Python `float(s)` restricted to plain signed decimal literals.  Strings
outside that fragment (exponent, `inf`/`nan` words, stray characters) map to
`none`, meaning `ValueError`; every string the cleaners below feed to
`astype(float)` in the properties proved here lies in this fragment. -/
def parseFloat (s : String) : Option ℚ :=
  match s.data with
  | [] => none
  | c :: rest =>
    if c = '-' then (parseUnsigned rest).map (fun q => -q)
    else if c = '+' then parseUnsigned rest
    else parseUnsigned (c :: rest)

/-- Characters kept by the numeric cleaner's regex `[^\d.-]` removal:
digits, the decimal point and the minus sign. -/
def floatChar (c : Char) : Bool := c.isDigit || c = '.' || c = '-'

/-- Whitespace trim on a character list, modelling pandas `.str.strip()`. -/
def charTrim (l : List Char) : List Char :=
  ((l.dropWhile Char.isWhitespace).reverse.dropWhile Char.isWhitespace).reverse

/-- The literal tokens replaced by NaN in both cleaners:
`.replace(["-", "#DIV/0!", "", " "], np.nan)`. -/
def missingTokens : List String := ["-", "#DIV/0!", "", " "]

/-- Shared tail of both cleaners: the token→NaN `replace` followed by
`astype(float)` (which raises `ValueError` on unparseable text). -/
def finishClean (t : String) : Except Unit (Option ℚ) :=
  if t ∈ missingTokens then Except.ok none
  else
    match parseFloat t with
    | some q => Except.ok (some q)
    | none => Except.error ()

/-- Text stage of `clean_numeric_column`, per cell: remove commas, then
remove every character that is not a digit, a point or a minus sign. -/
def cleanNumericText (s : String) : String :=
  String.mk ((s.data.filter (fun c => c ≠ ',')).filter floatChar)

/-- `clean_numeric_column`, per cell (the column map is elementwise). -/
def clean_numeric_cell (s : String) : Except Unit (Option ℚ) :=
  finishClean (cleanNumericText s)

/-- Text stage of `clean_percentage_column`, per cell: remove every `%`,
remove every comma, then strip surrounding whitespace. -/
def cleanPercentageText (s : String) : String :=
  String.mk (charTrim ((s.data.filter (fun c => c ≠ '%')).filter (fun c => c ≠ ',')))

/-- `clean_percentage_column`, per cell. -/
def clean_percentage_cell (s : String) : Except Unit (Option ℚ) :=
  finishClean (cleanPercentageText s)

/-- The percentage cleaner as the spec words it (for comparison with
`clean_percentage_cell`): strip surrounding whitespace and only a trailing
`%` sign, removing no other character, then the same missing-token mapping
and float parse as the numeric cleaner. -/
def clean_percentage_cell_as_claimed (s : String) : Except Unit (Option ℚ) :=
  let t1 := charTrim s.data
  let t2 := if t1.getLast? = some '%' then t1.dropLast else t1
  finishClean (String.mk (charTrim t2))

/-- Header normalization of Step 3:
`.str.replace("\n", " ").str.strip().str.replace(" ", "_")`. -/
def normalize_header (s : String) : String :=
  String.mk
    (((s.data.map (fun c => if c = '\n' then ' ' else c)) |> charTrim).map
      (fun c => if c = ' ' then '_' else c))

/-! ### Step 6 and 7: growth metrics and capping -/

/-- `Revenue_Growth_%` of one row: pandas elementwise
`(a25 - a24) / a24.replace(0, np.nan) * 100`; NaN propagates through the
arithmetic, so the result is missing whenever either operand is missing or
the denominator is zero. -/
def revenue_growth (a25 a24 : Option ℚ) : Option ℚ :=
  let denom : Option ℚ := if a24 = some 0 then none else a24
  match a25, denom with
  | some x, some y => some ((x - y) / y * 100)
  | _, _ => none

/-- `growth_cap = 100  # Limit to ±100%` -/
def growth_cap : ℚ := 100

/-- `av_cap = -5  # Limit minimum AV% to -5%` -/
def av_cap : ℚ := -5

/-- `Capped_Revenue_Growth_%`: `np.clip(x, -growth_cap, growth_cap)`
elementwise; `np.clip` of NaN is NaN. -/
def capped_revenue_growth (rg : Option ℚ) : Option ℚ :=
  rg.map (fun v => min (max v (-growth_cap)) growth_cap)

/-- `Capped_AV%`: `np.clip(x, av_cap, None)` elementwise (floor only). -/
def capped_av (av : Option ℚ) : Option ℚ :=
  av.map (fun v => max v av_cap)

/-! ### Step 8: bubble sizes -/

/-- `min_bubble_size = 10` -/
def min_bubble_size : ℚ := 10

/-- `max_bubble_size = 300` -/
def max_bubble_size : ℚ := 300

/-- Series minimum skipping missing values, as pandas `Series.min()`
(NaN when there is no non-missing value). -/
def seriesMin : List ℚ → Option ℚ
  | [] => none
  | x :: xs =>
    match seriesMin xs with
    | none => some x
    | some m => some (min x m)

/-- Series maximum skipping missing values, as pandas `Series.max()`. -/
def seriesMax : List ℚ → Option ℚ
  | [] => none
  | x :: xs =>
    match seriesMax xs with
    | none => some x
    | some m => some (max x m)

/-- Raw bubble size of one row before `fillna`/`clip`:
`(v - col.min()) / (col.max() - col.min()) * (300 - 10) + 10`.
`none` models NaN: the row value or an aggregate is missing, or the
denominator is zero (for a value `v` drawn from `col` the numerator is then
zero as well, so the pandas result is NaN `0.0/0.0`, never an infinity). -/
def bubbleRaw (col : List (Option ℚ)) (v : Option ℚ) : Option ℚ :=
  match v, seriesMin (col.filterMap id), seriesMax (col.filterMap id) with
  | some x, some m, some M =>
    if M - m = 0 then none
    else some ((x - m) / (M - m) * (max_bubble_size - min_bubble_size) + min_bubble_size)
  | _, _, _ => none

/-- `Bubble_Size` of one row: the raw size after
`.fillna(min_bubble_size).clip(lower=min_bubble_size)`. -/
def bubble_size (col : List (Option ℚ)) (v : Option ℚ) : ℚ :=
  max ((bubbleRaw col v).getD min_bubble_size) min_bubble_size

/-! ### Step 9 and 10: slider defaults and the interactive filter -/

/-- A row of the derived table, restricted to the two columns the
interactive filter reads. -/
structure Row where
  cappedGrowth : Option ℚ
  cappedAV : Option ℚ
deriving DecidableEq

/-- `value=[-100, 100]` of the `growth_range` slider. -/
def growth_range_default : ℚ × ℚ := (-100, 100)

/-- `value=[-5, 100]` of the `av_range` slider. -/
def av_range_default : ℚ × ℚ := (-5, 100)

/-- Pandas `series >= x` on one cell: a NaN comparison is `False`. -/
def seriesGE (o : Option ℚ) (x : ℚ) : Bool :=
  match o with
  | some v => decide (x ≤ v)
  | none => false

/-- Pandas `series <= x` on one cell: a NaN comparison is `False`. -/
def seriesLE (o : Option ℚ) (x : ℚ) : Bool :=
  match o with
  | some v => decide (v ≤ x)
  | none => false

/-- The boolean-mask row selection of `update_chart`:
`data[(cg >= g0) & (cg <= g1) & (cav >= a0) & (cav <= a1)]`. -/
def update_chart (growth_range av_range : ℚ × ℚ) (rows : List Row) : List Row :=
  rows.filter (fun r =>
    seriesGE r.cappedGrowth growth_range.1 && seriesLE r.cappedGrowth growth_range.2 &&
    seriesGE r.cappedAV av_range.1 && seriesLE r.cappedAV av_range.2)

end DashApp

namespace DashApp

/-! ### Helper lemmas -/

theorem mem_dropWhile_of_neg {p : Char → Bool} {c : Char} (hc : p c = false) :
    ∀ {l : List Char}, c ∈ l → c ∈ l.dropWhile p := by
  intro l h
  induction l with
  | nil => simp at h
  | cons x xs ih =>
    rw [List.dropWhile_cons]
    by_cases hx : p x = true
    · simp only [hx, if_true]
      rcases List.mem_cons.mp h with rfl | hmem
      · rw [hx] at hc; cases hc
      · exact ih hmem
    · simp only [hx, if_false]
      exact h

theorem mem_charTrim {c : Char} (hc : c.isWhitespace = false) {l : List Char}
    (h : c ∈ l) : c ∈ charTrim l := by
  unfold charTrim
  rw [List.mem_reverse]
  refine mem_dropWhile_of_neg hc ?_
  rw [List.mem_reverse]
  exact mem_dropWhile_of_neg hc h

theorem charTrim_subset (l : List Char) : charTrim l ⊆ l := by
  unfold charTrim
  intro c hcm
  rw [List.mem_reverse] at hcm
  have h1 := (List.dropWhile_sublist (l := (List.dropWhile Char.isWhitespace l).reverse)
    (p := Char.isWhitespace)).subset hcm
  rw [List.mem_reverse] at h1
  exact (List.dropWhile_sublist (l := l) (p := Char.isWhitespace)).subset h1

theorem seriesMin_eq_none {l : List ℚ} : seriesMin l = none ↔ l = [] := by
  cases l with
  | nil => simp [seriesMin]
  | cons x xs =>
    simp only [seriesMin]
    cases seriesMin xs <;> simp

theorem seriesMax_eq_none {l : List ℚ} : seriesMax l = none ↔ l = [] := by
  cases l with
  | nil => simp [seriesMax]
  | cons x xs =>
    simp only [seriesMax]
    cases seriesMax xs <;> simp

theorem seriesMin_le {l : List ℚ} {m : ℚ} (hm : seriesMin l = some m) :
    ∀ x ∈ l, m ≤ x := by
  induction l generalizing m with
  | nil => simp [seriesMin] at hm
  | cons y ys ih =>
    intro x hx
    rw [seriesMin] at hm
    rcases h : seriesMin ys with _ | m0
    · rw [h] at hm
      have hys : ys = [] := seriesMin_eq_none.mp h
      subst hys
      rcases List.mem_cons.mp hx with rfl | hmem
      · exact le_of_eq (Option.some.inj hm).symm
      · simp at hmem
    · rw [h] at hm
      have hmm : m = min y m0 := (Option.some.inj hm).symm
      rcases List.mem_cons.mp hx with rfl | hmem
      · rw [hmm]; exact min_le_left _ _
      · rw [hmm]; exact le_trans (min_le_right _ _) (ih h x hmem)

theorem le_seriesMax {l : List ℚ} {M : ℚ} (hM : seriesMax l = some M) :
    ∀ x ∈ l, x ≤ M := by
  induction l generalizing M with
  | nil => simp [seriesMax] at hM
  | cons y ys ih =>
    intro x hx
    rw [seriesMax] at hM
    rcases h : seriesMax ys with _ | M0
    · rw [h] at hM
      have hys : ys = [] := seriesMax_eq_none.mp h
      subst hys
      rcases List.mem_cons.mp hx with rfl | hmem
      · exact le_of_eq (Option.some.inj hM)
      · simp at hmem
    · rw [h] at hM
      have hMM : M = max y M0 := (Option.some.inj hM).symm
      rcases List.mem_cons.mp hx with rfl | hmem
      · rw [hMM]; exact le_max_left _ _
      · rw [hMM]; exact le_trans (ih h x hmem) (le_max_right _ _)

/-! ### Claim theorems -/

/-- C5: the claim says every cell in `{"#DIV/0!", "-", "", " "}` cleans to
missing in both cleaners.  The percentage cleaner and three of the numeric
tokens agree, but the numeric cleaner runs its `[^\d.-]` strip before the
token replace, so `"#DIV/0!"` is reduced to the text `"0"` and cleans to the
number `0.0` instead of missing (the in-scenario cell `"1,234"` does clean
to `1234.0`). -/
theorem clean_divzero_numeric_bug :
    clean_numeric_cell "#DIV/0!" = Except.ok (some 0) ∧
    clean_numeric_cell "-" = Except.ok none ∧
    clean_numeric_cell "" = Except.ok none ∧
    clean_numeric_cell " " = Except.ok none ∧
    clean_percentage_cell "#DIV/0!" = Except.ok none ∧
    clean_percentage_cell "-" = Except.ok none ∧
    clean_percentage_cell "" = Except.ok none ∧
    clean_percentage_cell " " = Except.ok none ∧
    clean_numeric_cell "1,234" = Except.ok (some 1234) := by
  decide

/-- C6: the claim says the numeric cleaner is total and maps unparseable
cells to missing.  In the code only the four literal tokens are mapped to
NaN; any other cell whose stripped text is not a float literal (for example
`"."` or `"1.2.3"`) reaches `astype(float)`, which raises `ValueError` and
aborts the pipeline. -/
theorem clean_numeric_dot_raises :
    clean_numeric_cell "." = Except.error () ∧
    clean_numeric_cell "1.2.3" = Except.error () := by
  decide

/-- C8 counterexample: the normalizer replaces only newlines and spaces, so
the header `"Actuals (k, Local)\nFY25 YTD"` does not normalize to
`Actuals_k_Local_FY25_YTD` — parentheses and commas are preserved. -/
theorem normalize_header_scenario_ne :
    normalize_header "Actuals (k, Local)\nFY25 YTD" ≠ "Actuals_k_Local_FY25_YTD" := by
  decide

/-- C8 amended: the normalizer replaces embedded newlines with spaces,
strips surrounding whitespace and replaces remaining spaces with
underscores, leaving all other characters (parentheses, commas) in place:
the sample header normalizes to `Actuals_(k,_Local)_FY25_YTD`, and no
normalized header contains a newline or a space. -/
theorem normalize_header_amended :
    normalize_header "Actuals (k, Local)\nFY25 YTD" = "Actuals_(k,_Local)_FY25_YTD" ∧
    ∀ s : String, '\n' ∉ (normalize_header s).data ∧ ' ' ∉ (normalize_header s).data := by
  refine ⟨by decide, fun s => ⟨?_, ?_⟩⟩
  · intro h
    rcases List.mem_map.mp h with ⟨c0, hc0, heq⟩
    by_cases h0 : c0 = ' '
    · rw [if_pos h0] at heq; cases heq
    · rw [if_neg h0] at heq
      subst heq
      have h1 := charTrim_subset _ hc0
      rcases List.mem_map.mp h1 with ⟨c1, _, heq1⟩
      by_cases h2 : c1 = '\n'
      · rw [if_pos h2] at heq1; cases heq1
      · rw [if_neg h2] at heq1; exact h2 heq1
  · intro h
    rcases List.mem_map.mp h with ⟨c0, _, heq⟩
    by_cases h0 : c0 = ' '
    · rw [if_pos h0] at heq; cases heq
    · rw [if_neg h0] at heq; exact h0 heq

/-- C8 amended witness: the conclusion at the concrete header of the
scenario. -/
theorem normalize_header_amended_witness :
    '\n' ∉ (normalize_header "Actuals (k, Local)\nFY25 YTD").data ∧
    ' ' ∉ (normalize_header "Actuals (k, Local)\nFY25 YTD").data :=
  normalize_header_amended.2 "Actuals (k, Local)\nFY25 YTD"

/-- C4: `Revenue_Growth_%` equals `(a25 - a24) / a24 * 100` whenever the
prior-period actual is present and nonzero, and is missing — not infinite
and without an exception — whenever it is exactly zero (the `replace(0,
np.nan)` of Step 6). -/
theorem revenue_growth_correct (a25 : Option ℚ) (v : ℚ) (hv : v ≠ 0) :
    revenue_growth a25 (some v) = Option.map (fun x => (x - v) / v * 100) a25 ∧
    revenue_growth a25 (some 0) = none ∧
    revenue_growth a25 none = none := by
  refine ⟨?_, ?_, ?_⟩
  · have hne : ¬((some v : Option ℚ) = some 0) := by
      intro h; exact hv (Option.some.inj h)
    cases a25 <;> simp [revenue_growth, hne]
  · cases a25 <;> simp [revenue_growth]
  · cases a25 <;> simp [revenue_growth]

/-- C4 witness: the spec scenario `a24 = 0, a25 = 500` yields missing, and
a nonzero denominator yields the growth formula. -/
theorem revenue_growth_witness :
    revenue_growth (some 500) (some 250) =
      Option.map (fun x => (x - 250) / 250 * 100) (some 500) ∧
    revenue_growth (some 500) (some 0) = none ∧
    revenue_growth (some 500) none = none :=
  revenue_growth_correct (some 500) 250 (by norm_num)

/-- C2: each capped growth value lies in `[-100, 100]`, each capped AV value
is at least `-5` (no upper bound is applied), and a missing source value
stays missing through the capping. -/
theorem capped_metrics_invariant (rg av : Option ℚ) :
    (∀ q, capped_revenue_growth rg = some q → -100 ≤ q ∧ q ≤ 100) ∧
    (∀ q, capped_av av = some q → -5 ≤ q) ∧
    (rg = none → capped_revenue_growth rg = none) ∧
    (av = none → capped_av av = none) := by
  refine ⟨?_, ?_, ?_, ?_⟩
  · intro q hq
    cases rg with
    | none => cases hq
    | some v =>
      have : q = min (max v (-growth_cap)) growth_cap :=
        (Option.some.inj hq).symm
      subst this
      rw [growth_cap]
      exact ⟨le_min (le_max_right _ _) (by norm_num), min_le_right _ _⟩
  · intro q hq
    cases av with
    | none => cases hq
    | some v =>
      have : q = max v av_cap := (Option.some.inj hq).symm
      subst this
      rw [av_cap]
      exact le_max_right _ _
  · intro h; rw [h]; rfl
  · intro h; rw [h]; rfl

/-- C2 witness: the invariant evaluated at a present and a missing cell. -/
theorem capped_metrics_invariant_witness :
    ((-100 : ℚ) ≤ 0 ∧ (0 : ℚ) ≤ 100) ∧ (-5 : ℚ) ≤ 7 ∧
    capped_revenue_growth none = none ∧ capped_av none = none :=
  ⟨(capped_metrics_invariant (some 0) (some 7)).1 0 (by decide),
   (capped_metrics_invariant (some 0) (some 7)).2.1 7 (by decide),
   (capped_metrics_invariant none none).2.2.1 rfl,
   (capped_metrics_invariant none none).2.2.2 rfl⟩

/-- C9: re-running the numeric cleaner on an already-cleaned column is the
identity at the value level: a cell whose text is a plain float rendering
(only digits, decimal point and minus sign — no commas or extraneous
symbols) cleans to exactly the value it denotes, and a missing entry (which
`astype(str)` renders as `"nan"`) cleans back to missing. -/
theorem clean_numeric_idempotent (s : String) (q : ℚ)
    (hchars : s.data.all floatChar = true) (hparse : parseFloat s = some q) :
    clean_numeric_cell s = Except.ok (some q) ∧
    clean_numeric_cell "nan" = Except.ok none := by
  refine ⟨?_, by decide⟩
  have hflt : ∀ a ∈ s.data, floatChar a = true := List.all_eq_true.mp hchars
  have h1 : s.data.filter (fun c => c ≠ ',') = s.data := by
    rw [List.filter_eq_self]
    intro a ha
    rw [decide_eq_true_eq]
    intro hEq
    have := hflt a ha
    rw [hEq] at this
    cases this
  have h2 : s.data.filter floatChar = s.data :=
    List.filter_eq_self.mpr hflt
  have htext : cleanNumericText s = s := by
    simp only [cleanNumericText, h1, h2]
  have hnot : s ∉ missingTokens := by
    intro hmem
    have hnone : parseFloat s = none := by
      rcases (by simpa [missingTokens] using hmem :
          s = "-" ∨ s = "#DIV/0!" ∨ s = "" ∨ s = " ") with rfl | rfl | rfl | rfl <;> decide
    rw [hnone] at hparse
    cases hparse
  simp only [clean_numeric_cell, htext, finishClean, if_neg hnot, hparse]

/-- C9 witness: the cleaner applied to the clean rendering `"1234"`. -/
theorem clean_numeric_idempotent_witness :
    clean_numeric_cell "1234" = Except.ok (some 1234) ∧
    clean_numeric_cell "nan" = Except.ok none :=
  clean_numeric_idempotent "1234" 1234 (by decide) (by decide)

/-- C7 counterexample: the code removes every `%` sign (and every comma),
not only a trailing one: on the cell `"%5"` the code produces `5.0` while a
cleaner that strips only a trailing `%` (as the claim words it) would pass
`"%5"` to the float parse and fail. -/
theorem clean_percentage_not_only_trailing :
    clean_percentage_cell "%5" = Except.ok (some 5) ∧
    clean_percentage_cell_as_claimed "%5" = Except.error () := by
  decide

/-- C7 amended: the percentage cleaner removes every `%` sign and every
comma anywhere in the cell and strips surrounding whitespace; it removes no
other non-whitespace character; and it finishes with the same missing-token
mapping and float parse (`finishClean`) as the numeric cleaner. -/
theorem clean_percentage_amended (s : String) :
    clean_percentage_cell s = finishClean (cleanPercentageText s) ∧
    (∀ c ∈ (cleanPercentageText s).data, c ≠ '%' ∧ c ≠ ',' ∧ c ∈ s.data) ∧
    (∀ c ∈ s.data, c ≠ '%' → c ≠ ',' → c.isWhitespace = false →
      c ∈ (cleanPercentageText s).data) := by
  refine ⟨rfl, ?_, ?_⟩
  · intro c hc
    have h1 := charTrim_subset _ hc
    have h2 := List.mem_filter.mp h1
    have h3 := List.mem_filter.mp h2.1
    exact ⟨decide_eq_true_eq.mp h3.2, decide_eq_true_eq.mp h2.2, h3.1⟩
  · intro c hc hpct hcomma hws
    refine mem_charTrim hws ?_
    refine List.mem_filter.mpr ⟨List.mem_filter.mpr ⟨hc, ?_⟩, ?_⟩
    · exact decide_eq_true hpct
    · exact decide_eq_true hcomma

/-- C7 amended witness: the cell `" 45% "` cleans through the shared tail,
and its digit `'4'` survives the character removal. -/
theorem clean_percentage_amended_witness :
    clean_percentage_cell " 45% " = finishClean (cleanPercentageText " 45% ") ∧
    '4' ∈ (cleanPercentageText " 45% ").data :=
  ⟨(clean_percentage_amended " 45% ").1,
   (clean_percentage_amended " 45% ").2.2 '4' (by decide) (by decide) (by decide)
     (by decide)⟩

/-- C1: for every table and every bound pair, `update_chart` returns
exactly the subsequence of rows whose capped growth and capped AV are both
present and inside the inclusive bounds; rows with a missing capped field
never appear. -/
theorem update_chart_filter (g0 g1 a0 a1 : ℚ) (rows : List Row) :
    (update_chart (g0, g1) (a0, a1) rows).Sublist rows ∧
    ∀ r : Row, r ∈ update_chart (g0, g1) (a0, a1) rows ↔
      r ∈ rows ∧ ∃ g a, r.cappedGrowth = some g ∧ r.cappedAV = some a ∧
        g0 ≤ g ∧ g ≤ g1 ∧ a0 ≤ a ∧ a ≤ a1 := by
  refine ⟨List.filter_sublist _, fun r => ?_⟩
  simp only [update_chart, List.mem_filter]
  constructor
  · rintro ⟨hm, hp⟩
    refine ⟨hm, ?_⟩
    rcases hg : r.cappedGrowth with _ | g
    · rw [hg] at hp; simp [seriesGE] at hp
    rcases ha : r.cappedAV with _ | a
    · rw [hg, ha] at hp; simp [seriesGE, seriesLE] at hp
    · rw [hg, ha] at hp
      simp only [seriesGE, seriesLE, Bool.and_eq_true, decide_eq_true_eq] at hp
      exact ⟨g, a, rfl, rfl, hp.1.1.1, hp.1.1.2, hp.1.2, hp.2⟩
  · rintro ⟨hm, g, a, hg, ha, h1, h2, h3, h4⟩
    refine ⟨hm, ?_⟩
    rw [hg, ha]
    simp only [seriesGE, seriesLE, Bool.and_eq_true, decide_eq_true_eq]
    exact ⟨⟨⟨h1, h2⟩, h3⟩, h4⟩

/-- C10: `Capped_AV%` has no upper bound, but the AV slider's default range
tops out at 100, so the default view drops every row whose capped AV
exceeds 100 even though both capped fields are present. -/
theorem default_av_range_excludes (rows : List Row) (r : Row) (a : ℚ)
    (ha : r.cappedAV = some a) (h100 : 100 < a) :
    r ∉ update_chart growth_range_default av_range_default rows := by
  intro hmem
  simp only [update_chart, List.mem_filter] at hmem
  have hp := hmem.2
  rw [ha] at hp
  simp only [seriesGE, seriesLE, av_range_default, growth_range_default,
    Bool.and_eq_true, decide_eq_true_eq] at hp
  exact absurd hp.2 (not_le.mpr h100)

/-- C10 witness: capping does not shrink an AV of 150, yet the row carrying
it is dropped by the default-range filter. -/
theorem default_av_range_excludes_witness :
    capped_av (some 150) = some 150 ∧
    (⟨some 0, some 150⟩ : Row) ∉
      update_chart growth_range_default av_range_default
        [⟨some 0, some 150⟩] :=
  ⟨by decide,
   default_av_range_excludes [⟨some 0, some 150⟩] ⟨some 0, some 150⟩ 150 rfl
     (by norm_num)⟩

/-- C3: for every row value drawn from the volume column, `Bubble_Size` is
computed without raising (the model is a total function: a zero
normalization denominator yields NaN, not an error) and lies in `[10, 300]`;
a missing value or a degenerate normalization (column maximum equal to
column minimum, including the all-missing column) yields exactly the floor
10. -/
theorem bubble_size_safe (col : List (Option ℚ)) (v : Option ℚ) (hv : v ∈ col) :
    (10 ≤ bubble_size col v ∧ bubble_size col v ≤ 300) ∧
    (v = none → bubble_size col v = 10) ∧
    (seriesMin (col.filterMap id) = seriesMax (col.filterMap id) →
      bubble_size col v = 10) := by
  have hmain : bubbleRaw col v = none ∨
      ∃ x, bubbleRaw col v = some x ∧ 10 ≤ x ∧ x ≤ 300 := by
    rcases v with _ | x
    · left; rfl
    rcases hmin : seriesMin (col.filterMap id) with _ | m
    · left; simp [bubbleRaw, hmin]
    rcases hmax : seriesMax (col.filterMap id) with _ | M
    · left; simp [bubbleRaw, hmin, hmax]
    by_cases hd : M - m = 0
    · left; simp [bubbleRaw, hmin, hmax, hd]
    · right
      have hx : x ∈ col.filterMap id := List.mem_filterMap.mpr ⟨some x, hv, rfl⟩
      have hxm := seriesMin_le hmin x hx
      have hxM := le_seriesMax hmax x hx
      have hpos : 0 < M - m := by
        rcases lt_or_eq_of_le (by linarith : (0 : ℚ) ≤ M - m) with h | h
        · exact h
        · exact absurd h.symm hd
      have ht0 : 0 ≤ (x - m) / (M - m) := div_nonneg (by linarith) (le_of_lt hpos)
      have ht1 : (x - m) / (M - m) ≤ 1 := by
        rw [div_le_one hpos]; linarith
      refine ⟨(x - m) / (M - m) * (max_bubble_size - min_bubble_size) + min_bubble_size,
        ?_, ?_, ?_⟩
      · simp [bubbleRaw, hmin, hmax, hd]
      · simp only [min_bubble_size, max_bubble_size]
        nlinarith
      · simp only [min_bubble_size, max_bubble_size]
        nlinarith
  have hdeg : ∀ h : bubbleRaw col v = none, bubble_size col v = 10 := by
    intro h
    simp only [bubble_size, h, Option.getD_none, min_bubble_size, max_self]
  refine ⟨?_, ?_, ?_⟩
  · rcases hmain with hnone | ⟨x, hx, h10, h300⟩
    · rw [hdeg hnone]
      norm_num
    · simp only [bubble_size, hx, Option.getD_some, min_bubble_size]
      exact ⟨le_max_right _ _, max_le h300 (by norm_num)⟩
  · intro hvn
    subst hvn
    exact hdeg rfl
  · intro heq
    refine hdeg ?_
    rcases v with _ | x
    · rfl
    rcases hmin : seriesMin (col.filterMap id) with _ | m
    · simp [bubbleRaw, hmin]
    rcases hmax : seriesMax (col.filterMap id) with _ | M
    · simp [bubbleRaw, hmin, hmax]
    · have hmM : m = M := by
        rw [hmin, hmax] at heq
        exact Option.some.inj heq
      subst hmM
      simp [bubbleRaw, hmin, hmax]

/-- C3 witness: a missing volume cell in a column with spread gets the
floor, inside the bounds; an all-equal column is degenerate and also gets
exactly the floor. -/
theorem bubble_size_safe_witness :
    (10 ≤ bubble_size [none, some 3, some 7] none ∧
      bubble_size [none, some 3, some 7] none ≤ 300) ∧
    bubble_size [none, some 3, some 7] none = 10 ∧
    bubble_size [some 5, some 5] (some 5) = 10 :=
  ⟨(bubble_size_safe [none, some 3, some 7] none
      (List.mem_cons_self none [some 3, some 7])).1,
   (bubble_size_safe [none, some 3, some 7] none
      (List.mem_cons_self none [some 3, some 7])).2.1 rfl,
   (bubble_size_safe [some 5, some 5] (some 5)
      (List.mem_cons_self (some 5) [some 5])).2.2 (by decide)⟩

end DashApp
